import Mathlib

/-!
Shallow embedding of `tbmc_prospecting.py`, a single-file scraper that
fetches competition pages, heuristically extracts prospect records from the
HTML, appends them to a CSV ledger, and rewrites the competitions table.

Conventions of the embedding:
* The HTML document tree produced by BeautifulSoup is modelled by the mutual
  inductives `Node` / `NodeList` (a tag with its name, the list of strings in
  its class attribute, and its ordered children; or a bare navigable string).
* The regular expressions of the source are modelled by dedicated executable
  matchers over the character list of a string, faithful to left-to-right
  search with in-order alternation as Python re.search performs it.
* Fallible effects (HTTP fetch, file system) are modelled by explicit data:
  a fetch outcome value, and the CSV file as an optional list of rows
  (missing file = none; rows are structured, quoting is not modelled).
-/

/-- Python word character for the purposes of the regexes in the source
(ASCII fragment of the re module class of word characters). -/
def wordChar (c : Char) : Bool := c.isAlpha || c.isDigit || c == '_'

/-- Python `str.strip()` (ASCII whitespace fragment): drop leading and
trailing whitespace. -/
def pyStrip (s : String) : String :=
  String.mk (((s.data.dropWhile Char.isWhitespace).reverse.dropWhile Char.isWhitespace).reverse)

/-- Case-insensitive prefix test: does the pattern (first argument) occur at
the head of the text (second argument), comparing lowercased characters? -/
def isPrefixCI : List Char → List Char → Bool
  | [], _ => true
  | _ :: _, [] => false
  | p :: ps, c :: cs => (c.toLower == p.toLower) && isPrefixCI ps cs

/-- Case-insensitive substring search over a character list, scanning
positions left to right, as `re.search` does for a literal with `re.I`. -/
def searchCI (pat : List Char) : List Char → Bool
  | [] => isPrefixCI pat []
  | c :: cs => isPrefixCI pat (c :: cs) || searchCI pat cs

/-- Case-insensitive substring containment on strings. -/
def containsCI (s pat : String) : Bool := searchCI pat.data s.data

/-- Model of `re.search(r'winner|award|prize', s, re.I)` viewed as a Boolean:
the alternation of plain literals succeeds exactly when one of them occurs
as a case-insensitive substring. -/
def regexWinnerAwardPrize (s : String) : Bool :=
  containsCI s "winner" || containsCI s "award" || containsCI s "prize"

/-- Model of `re.search(r'winner|award|prize|about', name, re.I)` (the name
filter of `extract_basic_info`, line 65 of the source). -/
def regexNameStop (s : String) : Bool :=
  regexWinnerAwardPrize s || containsCI s "about"

/-- Model of `re.search(r'university|college|school', text, re.I)` (the
school detector of `extract_basic_info`, line 78 of the source). -/
def regexSchool (s : String) : Bool :=
  containsCI s "university" || containsCI s "college" || containsCI s "school"

/-- Consume a case-insensitive literal at the head of the text, returning the
matched original characters and the remainder. -/
def matchLitCI (pat cs : List Char) : Option (List Char × List Char) :=
  if isPrefixCI pat cs then some (cs.take pat.length, cs.drop pat.length) else none

/-- One attempt of the year regex `(freshman|sophomore|junior|senior|\b\d{4}\b)`
at a fixed position: alternatives tried in pattern order; `prev` is the
character immediately before the position, used for the word boundary of the
four-digit alternative. Returns the matched substring (group 0), in the
original case of the text. -/
def yearAt (prev : Option Char) (cs : List Char) : Option String :=
  (matchLitCI "freshman".data cs).map (fun p => String.mk p.1) <|>
  (matchLitCI "sophomore".data cs).map (fun p => String.mk p.1) <|>
  (matchLitCI "junior".data cs).map (fun p => String.mk p.1) <|>
  (matchLitCI "senior".data cs).map (fun p => String.mk p.1) <|>
  (match cs with
   | d1 :: d2 :: d3 :: d4 :: rest =>
     if (match prev with | none => true | some p => !wordChar p)
        && d1.isDigit && d2.isDigit && d3.isDigit && d4.isDigit
        && (match rest with | [] => true | r :: _ => !wordChar r)
     then some (String.mk [d1, d2, d3, d4]) else none
   | _ => none)

/-- Left-to-right scan for the year regex: the leftmost position at which
some alternative matches wins (Python re.search semantics). -/
def yearSearchAux (prev : Option Char) : List Char → Option String
  | [] => yearAt prev []
  | c :: rest => yearAt prev (c :: rest) <|> yearSearchAux (some c) rest

/-- Model of `re.search(r'(freshman|sophomore|junior|senior|\b\d{4}\b)', text, re.I)`
followed by `.group(0)` (line 82 of the source). -/
def yearRegexSearch (s : String) : Option String := yearSearchAux none s.data

/-- Longest run of word characters at the head of the text, with the rest. -/
def takeWordRun : List Char → List Char × List Char
  | [] => ([], [])
  | c :: cs =>
    if wordChar c then
      let p := takeWordRun cs
      (c :: p.1, p.2)
    else ([], c :: cs)

/-- First alternative of the major regex, `major(ing)? in (\w+)`, attempted
at a fixed position; the greedy optional group tries `ing` first. Returns
capture group 2. -/
def majorAlt1 (cs : List Char) : Option String :=
  (match matchLitCI "majoring in ".data cs with
   | some (_, rest) =>
     let w := (takeWordRun rest).1
     if w.isEmpty then none else some (String.mk w)
   | none => none) <|>
  (match matchLitCI "major in ".data cs with
   | some (_, rest) =>
     let w := (takeWordRun rest).1
     if w.isEmpty then none else some (String.mk w)
   | none => none)

/-- Second alternative of the major regex, `(\w+) major`, attempted at a
fixed position. The word run cannot stop early, since the following
character would have to be the space of the literal. Returns capture
group 3. -/
def majorAlt2 (cs : List Char) : Option String :=
  let p := takeWordRun cs
  if p.1.isEmpty then none
  else if isPrefixCI " major".data p.2 then some (String.mk p.1) else none

/-- One attempt of the full major regex at a fixed position, alternatives in
pattern order. -/
def majorAt (cs : List Char) : Option String := majorAlt1 cs <|> majorAlt2 cs

/-- Left-to-right scan for the major regex. -/
def majorSearchAux : List Char → Option String
  | [] => majorAt []
  | c :: rest => majorAt (c :: rest) <|> majorSearchAux rest

/-- Model of `re.search(r'major(ing)? in (\w+)|(\w+) major', text, re.I)`
followed by `.group(2) if .group(2) else .group(3)` (lines 87 to 89 of the
source): whichever alternative matched contributes its captured word. -/
def majorRegexSearch (s : String) : Option String := majorSearchAux s.data

mutual
/-- A node of the parsed HTML tree: a tag with its name, the class attribute
as a list of class strings, and ordered children; or a navigable string. -/
inductive Node where
  | text (s : String)
  | elem (tag : String) (classes : List String) (children : NodeList)
/-- An ordered list of sibling nodes (children of a tag, or a document). -/
inductive NodeList where
  | nil
  | cons (head : Node) (tail : NodeList)
end

mutual
/-- BeautifulSoup `get_text()`: concatenation of every string in the
subtree, in document order. -/
def getText : Node → String
  | .text s => s
  | .elem _ _ cs => getTextList cs
/-- `get_text()` over a list of nodes, concatenated in order. -/
def getTextList : NodeList → String
  | .nil => ""
  | .cons c rest => getText c ++ getTextList rest
end

mutual
/-- BeautifulSoup `.string`: the unique string child, reached through a
chain of single-child tags, if any. -/
def nodeString : Node → Option String
  | .text s => some s
  | .elem _ _ cs => nodeStringList cs
/-- `.string` of a child list: defined only when it is a singleton. -/
def nodeStringList : NodeList → Option String
  | .cons c .nil => nodeString c
  | _ => none
end

/-- Is the tag one of the block containers searched for winner sections,
`['div', 'section', 'article']`? -/
def containerTag (t : String) : Bool := t == "div" || t == "section" || t == "article"

/-- Does a node match `soup.find_all(['div','section','article'],
class_=re.compile(r'winner|award|prize', re.I))` (line 47 of the source)?
BeautifulSoup matches the regex against each class of the multi-valued
class attribute individually. -/
def sectionMatch : Node → Bool
  | .text _ => false
  | .elem t classes _ => containerTag t && classes.any regexWinnerAwardPrize

mutual
/-- Collect, in document order (pre-order), every descendant-or-self tag
matching `sectionMatch`. -/
def findSectionsNode : Node → List Node
  | .text _ => []
  | .elem t k cs =>
    (if sectionMatch (.elem t k cs) then [Node.elem t k cs] else []) ++ findSectionsList cs
/-- `find_all` for winner sections over a node list, in document order. -/
def findSectionsList : NodeList → List Node
  | .nil => []
  | .cons c rest => findSectionsNode c ++ findSectionsList rest
end

/-- Does a node match `soup.find_all(['h1','h2','h3','h4'],
string=re.compile(r'winner|award|prize', re.I))` (line 51 of the source)?
The `string=` filter tests the node, via BeautifulSoup `.string`. -/
def headingMatch : Node → Bool
  | .text _ => false
  | .elem t k cs =>
    (t == "h1" || t == "h2" || t == "h3" || t == "h4")
    && (match nodeString (.elem t k cs) with
        | some s => regexWinnerAwardPrize s
        | none => false)

/-- `heading.find_parent(['div','section','article'])` (line 53 of the
source): the nearest enclosing container tag, given the ancestor chain
nearest-first. -/
def findParentSection : List Node → Option Node
  | [] => none
  | n :: rest =>
    match n with
    | .elem t k cs => if containerTag t then some (Node.elem t k cs) else findParentSection rest
    | .text _ => findParentSection rest

mutual
/-- The fallback of phase A (lines 50 to 55 of the source): for each heading
matching `headingMatch`, in document order, append its nearest container
ancestor when there is one. `anc` is the ancestor chain, nearest first. -/
def headingSectionsNode (anc : List Node) : Node → List Node
  | .text _ => []
  | .elem t k cs =>
    (if headingMatch (.elem t k cs) then
       (match findParentSection anc with | some s => [s] | none => [])
     else []) ++ headingSectionsList (Node.elem t k cs :: anc) cs
/-- Heading-derived winner sections over a node list. -/
def headingSectionsList : List Node → NodeList → List Node
  | _, .nil => []
  | anc, .cons c rest => headingSectionsNode anc c ++ headingSectionsList anc rest
end

/-- Is the tag one of the name-bearing tags searched inside a section,
`['h3', 'h4', 'strong', 'b']` (line 59 of the source)? -/
def nameTagMatch : Node → Bool
  | .text _ => false
  | .elem t _ _ => t == "h3" || t == "h4" || t == "strong" || t == "b"

mutual
/-- `section.find_all(['h3','h4','strong','b'])` in document order, pairing
every found element with its list of following siblings, the list
`name_elem.next_siblings` iterates over (line 74 of the source). -/
def nameScanList : NodeList → List (Node × NodeList)
  | .nil => []
  | .cons c rest =>
    (if nameTagMatch c then [(c, rest)] else []) ++ nameScanNode c ++ nameScanList rest
/-- The descendant part of the name scan for one node. -/
def nameScanNode : Node → List (Node × NodeList)
  | .text _ => []
  | .elem _ _ cs => nameScanList cs
end

/-- One iteration of the sibling loop of `extract_basic_info` (lines 74 to
89 of the source): given the accumulated (school, year, major) and the next
sibling, update each field from the stripped text of the sibling unless the
field already holds a non-empty value. -/
def scanStep : String × String × String → Node → String × String × String
  | (school, year, major), el =>
    let text := pyStrip (getText el)
    let school1 := if regexSchool text && school == "" then text else school
    let year1 := match yearRegexSearch text with
      | some m => if year == "" then m else year
      | none => year
    let major1 := match majorRegexSearch text with
      | some m => if major == "" then m else major
      | none => major
    (school1, year1, major1)

/-- The sibling loop, folded from a given accumulator. -/
def scanSiblingsFrom (acc : String × String × String) : NodeList → String × String × String
  | .nil => acc
  | .cons c rest => scanSiblingsFrom (scanStep acc c) rest

/-- The sibling loop of `extract_basic_info` started from three empty
fields, as in lines 69 to 71 of the source. -/
def scanSiblings (sibs : NodeList) : String × String × String :=
  scanSiblingsFrom ("", "", "") sibs

/-- The stripped textual content of each sibling, in order (what the loop
variable `text` takes as values). -/
def sibTexts : NodeList → List String
  | .nil => []
  | .cons c rest => pyStrip (getText c) :: sibTexts rest

/-- A prospect record as built in lines 93 to 101 of the source; the keys of
the Python dict become fields. -/
structure Prospect where
  studentOrTeamName : String
  school : String
  year : String
  major : String
  competition : String
  ventureName : String
  email : String
deriving DecidableEq

/-- The body of the per-name part of `extract_basic_info` (lines 61 to 101
of the source): strip the text of the name element, skip it when it is
shorter than 3 characters or holds a stop word, otherwise scan the
following siblings and emit one record. -/
def processName (competition_name : String) (name_elem : Node) (siblings : NodeList) :
    List Prospect :=
  let name := pyStrip (getText name_elem)
  if name.length < 3 || regexNameStop name then []
  else
    let fields := scanSiblings siblings
    if name == "" then []
    else [{ studentOrTeamName := name, school := fields.1, year := fields.2.1,
            major := fields.2.2, competition := competition_name,
            ventureName := "", email := "" }]

/-- Processing of one winner section (lines 57 to 101 of the source): up to
5 name-bearing elements, each contributing through `processName`. -/
def processSection (competition_name : String) (sec : Node) : List Prospect :=
  (((nameScanNode sec).take 5).map (fun p => processName competition_name p.1 p.2)).flatten

/-- `extract_basic_info(html_content, competition_name)` (lines 31 to 103 of
the source). The argument is modelled after the parse: `none` stands for a
falsy `html_content` (absent or empty), on which the function returns `[]`
at once; `some soup` stands for the tree BeautifulSoup builds from a
non-empty document. -/
def extract_basic_info (html_content : Option NodeList) (competition_name : String) :
    List Prospect :=
  match html_content with
  | none => []
  | some soup =>
    let winner_sections := findSectionsList soup
    let winner_sections :=
      if winner_sections.isEmpty then headingSectionsList [] soup else winner_sections
    ((winner_sections.map (processSection competition_name)).flatten)

/-- The observable outcome of `requests.get(url, headers=..., timeout=10)`:
a response with its status code and body, a timeout, or any other transport
exception. -/
inductive FetchOutcome where
  | success (status : Nat) (body : String)
  | timeout
  | transportError
deriving DecidableEq

/-- `check_competition_website(url)` (lines 17 to 29 of the source), applied
to the outcome of the request for the url: the body on status 200, `None`
otherwise; the try/except block makes the function total, every exception
(timeout included) becoming the `None` result. -/
def check_competition_website (outcome : FetchOutcome) : Option String :=
  match outcome with
  | .success status body => if status == 200 then some body else none
  | .timeout => none
  | .transportError => none

/-- A CSV file held as its list of rows; a missing file is `none` at the
call sites. Cells are kept structured, quoting is not modelled. -/
abbrev CsvFile := List (List String)

/-- The fieldnames of the prospects ledger (line 114 of the source). -/
def prospectFieldnames : List String :=
  ["Student/Team Name", "School", "Year", "Major", "Competition", "Venture Name", "Email"]

/-- The CSV row `csv.DictWriter` emits for a prospect, cells in fieldname
order. -/
def prospectRow (p : Prospect) : List String :=
  [p.studentOrTeamName, p.school, p.year, p.major, p.competition, p.ventureName, p.email]

/-- `save_prospects_to_csv(prospects, output_file)` (lines 105 to 123 of the
source) as a transformer of the state of the output file: early return on an
empty list; otherwise note whether the file exists, open in append mode
(creating an empty file when missing), write the header when the file did
not exist, then the rows. -/
def save_prospects_to_csv (prospects : List Prospect) (file : Option CsvFile) :
    Option CsvFile :=
  if prospects.isEmpty then file
  else
    let file_exists := file.isSome
    let contents := file.getD []
    some ((if file_exists then contents else contents ++ [prospectFieldnames])
          ++ prospects.map prospectRow)

/-- A row of `competitions.csv` as read by `csv.DictReader` (lines 8 to 15
of the source). -/
structure Competition where
  competition_name : String
  url : String
  last_checked : String
deriving DecidableEq

/-- The fieldnames of the competitions table (lines 131 and 156 of the
source). -/
def competitionsFieldnames : List String := ["competition_name", "url", "last_checked"]

/-- The CSV row `csv.DictWriter` emits for a competition row. -/
def competitionRow (c : Competition) : List String :=
  [c.competition_name, c.url, c.last_checked]

/-- One iteration of the loop of `main` (lines 139 to 152 of the source):
check the website; on truthy content, extract, save non-empty prospect
lists to the ledger, and set `last_checked` to today. `fetch` gives the
outcome of the request per url, `parse` stands for BeautifulSoup, `today`
for `datetime.datetime.now().strftime(%Y-%m-%d)`. -/
def processCompetition (fetch : String → FetchOutcome) (parse : String → NodeList)
    (today : String) (c : Competition) (ledger : Option CsvFile) :
    Competition × Option CsvFile :=
  match check_competition_website (fetch c.url) with
  | none => (c, ledger)
  | some html_content =>
    if html_content == "" then (c, ledger)
    else
      let prospects := extract_basic_info (some (parse html_content)) c.competition_name
      let ledger1 := if prospects.isEmpty then ledger else save_prospects_to_csv prospects ledger
      ({ c with last_checked := today }, ledger1)

/-- The loop of `main` over the competitions list, threading the ledger file
state and returning the mutated in-memory competitions list. -/
def mainLoop (fetch : String → FetchOutcome) (parse : String → NodeList) (today : String) :
    List Competition → Option CsvFile → List Competition × Option CsvFile
  | [], ledger => ([], ledger)
  | c :: rest, ledger =>
    let step := processCompetition fetch parse today c ledger
    let further := mainLoop fetch parse today rest step.2
    (step.1 :: further.1, further.2)

namespace Tbmc

/-- `main()` from the point where the competitions table has been loaded
(lines 139 to 158 of the source): run the loop, then rewrite the
competitions table wholesale as header plus one row per entry. Returns the
rewritten competitions table and the final ledger state. -/
def main (fetch : String → FetchOutcome) (parse : String → NodeList) (today : String)
    (competitions : List Competition) (ledger : Option CsvFile) :
    CsvFile × Option CsvFile :=
  let run := mainLoop fetch parse today competitions ledger
  (competitionsFieldnames :: run.1.map competitionRow, run.2)

end Tbmc

mutual
/-- Does some node of the subtree (the node itself included) satisfy the
predicate? -/
def anyNodeP (p : Node → Bool) : Node → Bool
  | .text s => p (.text s)
  | .elem t k cs => p (.elem t k cs) || anyListP p cs
/-- Does some node of the forest satisfy the predicate, anywhere? -/
def anyListP (p : Node → Bool) : NodeList → Bool
  | .nil => false
  | .cons c rest => anyNodeP p c || anyListP p rest
end

/-- A heading (levels 1 to 4) whose textual content matches
winner|award|prize case-insensitively: the phrasing of the specification
for the fallback of phase A. -/
def winnerHeadingText : Node → Bool
  | .text _ => false
  | .elem t k cs =>
    (t == "h1" || t == "h2" || t == "h3" || t == "h4")
    && regexWinnerAwardPrize (getText (.elem t k cs))

/-- A winner section holding one name element followed by siblings with the
texts of the worked example of the specification. -/
def exampleSoup : NodeList :=
  .cons (.elem "div" ["winners"]
    (.cons (.elem "h3" [] (.cons (.text "John Doe") .nil))
    (.cons (.text "Jane University")
    (.cons (.text "sophomore")
    (.cons (.text "majoring in Biology") .nil))))) .nil

/-- A winner section whose only name candidate has a stripped text of
exactly 2 characters. -/
def shortNameSoup : NodeList :=
  .cons (.elem "div" ["winners"]
    (.cons (.elem "h3" [] (.cons (.text "Al") .nil)) .nil)) .nil

/-- A winner section whose only name candidate has a stripped text of
exactly 3 characters, none of the stop words occurring. -/
def threeCharNameSoup : NodeList :=
  .cons (.elem "div" ["winners"]
    (.cons (.elem "h3" [] (.cons (.text "Abe") .nil)) .nil)) .nil

/-- A document with neither a winner-classed container nor a winner-texted
heading. -/
def plainSoup : NodeList :=
  .cons (.elem "div" ["content"]
    (.cons (.elem "h2" [] (.cons (.text "Upcoming events") .nil))
    (.cons (.elem "p" [] (.cons (.text "hello world") .nil)) .nil))) .nil

/-- Two sibling nodes that both contain the word university. -/
def twoUnivSibs : NodeList :=
  .cons (.text "First University") (.cons (.text "Second University") .nil)

/-- A concrete prospect used by witnesses. -/
def exampleProspect : Prospect :=
  { studentOrTeamName := "Jane Roe", school := "Rice University", year := "senior",
    major := "Finance", competition := "Rice Business Plan Competition",
    ventureName := "", email := "" }

/-- A second concrete prospect used by witnesses. -/
def exampleProspect2 : Prospect :=
  { studentOrTeamName := "Ann Poe", school := "", year := "", major := "",
    competition := "MIT $100K", ventureName := "", email := "" }

/-- A concrete competitions row used by witnesses. -/
def exampleCompetition : Competition :=
  { competition_name := "MIT $100K", url := "https://www.mit100k.org/winners",
    last_checked := "" }

/-- Helper: a non-empty list is not `isEmpty`. -/
theorem isEmpty_false_of_ne_nil {α : Type} {l : List α} (h : l ≠ []) : l.isEmpty = false := by
  cases l with
  | nil => exact absurd rfl h
  | cons a t => rfl

/-- C3: for an accepted name element whose following siblings carry the
texts Jane University, sophomore, majoring in Biology, in that order, the
extractor emits one record with school the entire first sibling text, year
the matched substring of the second, and major the captured word of the
third. -/
theorem C3_worked_example :
    extract_basic_info (some exampleSoup) "Rice Business Plan Competition" =
      [{ studentOrTeamName := "John Doe", school := "Jane University", year := "sophomore",
         major := "Biology", competition := "Rice Business Plan Competition",
         ventureName := "", email := "" }] := by decide

/-- C8: on an empty prospect list the sink leaves the file state untouched,
whether the file is missing or present with any contents. -/
theorem C8_empty_sink_noop (file : Option CsvFile) :
    save_prospects_to_csv [] file = file := rfl

/-- C9: `extract_basic_info` is deterministic, a function of its two
arguments alone; the embedding is pure because the source routine reads no
mutable external state. -/
theorem C9_extract_deterministic (html1 html2 : Option NodeList) (name1 name2 : String)
    (hh : html1 = html2) (hn : name1 = name2) :
    extract_basic_info html1 name1 = extract_basic_info html2 name2 := by
  rw [hh, hn]

/-- Witness for C9, at one concrete pair of identical inputs. -/
theorem C9_witness :
    extract_basic_info (some exampleSoup) "Rice" = extract_basic_info (some exampleSoup) "Rice" :=
  C9_extract_deterministic (some exampleSoup) (some exampleSoup) "Rice" "Rice" rfl rfl

/-- C10: for a non-empty prospect list, the sink writes the header exactly
when the file does not exist; an existing file, even one with no rows, only
ever receives the data rows appended after its contents. -/
theorem C10_header_iff_absent (prospects : List Prospect) (h : prospects ≠ []) :
    save_prospects_to_csv prospects none =
        some (prospectFieldnames :: prospects.map prospectRow)
    ∧ (∀ contents : CsvFile, save_prospects_to_csv prospects (some contents) =
        some (contents ++ prospects.map prospectRow))
    ∧ save_prospects_to_csv prospects (some []) = some (prospects.map prospectRow) := by
  have hne : prospects.isEmpty = false := isEmpty_false_of_ne_nil h
  refine ⟨?_, fun contents => ?_, ?_⟩ <;> simp [save_prospects_to_csv, hne]

/-- Witness for C10: one prospect appended to an existing zero-row file,
with no header emitted. -/
theorem C10_witness :
    save_prospects_to_csv [exampleProspect] (some []) =
      some [["Jane Roe", "Rice University", "senior", "Finance",
             "Rice Business Plan Competition", "", ""]] :=
  ((C10_header_iff_absent [exampleProspect] (by decide)).2.2).trans (by decide)

/-- C7: two sink calls with non-empty prospect lists on an initially
missing file produce one header row followed by the rows of both calls in
call order; the rows of the first call survive the second unchanged. -/
theorem C7_two_runs_append (ps1 ps2 : List Prospect) (h1 : ps1 ≠ []) (h2 : ps2 ≠ []) :
    save_prospects_to_csv ps2 (save_prospects_to_csv ps1 none) =
      some (prospectFieldnames :: (ps1.map prospectRow ++ ps2.map prospectRow)) := by
  have hne1 : ps1.isEmpty = false := isEmpty_false_of_ne_nil h1
  have hne2 : ps2.isEmpty = false := isEmpty_false_of_ne_nil h2
  simp [save_prospects_to_csv, hne1, hne2]

/-- Witness for C7, with one concrete prospect in each call. -/
theorem C7_witness :
    save_prospects_to_csv [exampleProspect2] (save_prospects_to_csv [exampleProspect] none) =
      some [["Student/Team Name", "School", "Year", "Major", "Competition",
             "Venture Name", "Email"],
            ["Jane Roe", "Rice University", "senior", "Finance",
             "Rice Business Plan Competition", "", ""],
            ["Ann Poe", "", "", "", "MIT $100K", "", ""]] :=
  (C7_two_runs_append [exampleProspect] [exampleProspect2] (by decide) (by decide)).trans
    (by decide)

/-- C2: when the request for a competition url is a timeout, a transport
exception, or any response whose status is not 200, the fetcher returns no
content (it is a total function, so nothing propagates to the caller), the
competition leaves the ledger untouched and its row unchanged, and the loop
goes on to process the remaining competitions exactly as it would have
without this row. -/
theorem C2_fetch_failure_contained (fetch : String → FetchOutcome) (parse : String → NodeList)
    (today : String) (c : Competition) (rest : List Competition) (ledger : Option CsvFile)
    (h : ∀ body, fetch c.url ≠ FetchOutcome.success 200 body) :
    check_competition_website (fetch c.url) = none
    ∧ processCompetition fetch parse today c ledger = (c, ledger)
    ∧ mainLoop fetch parse today (c :: rest) ledger =
        (c :: (mainLoop fetch parse today rest ledger).1,
         (mainLoop fetch parse today rest ledger).2) := by
  have hc : check_competition_website (fetch c.url) = none := by
    cases hf : fetch c.url with
    | success s b =>
      have hs : (s == 200) = false := by
        cases hq : s == 200 with
        | false => rfl
        | true =>
          have hs2 : s = 200 := by simpa using hq
          exact absurd (by rw [hf, hs2]) (h b)
      simp [check_competition_website, hs]
    | timeout => rfl
    | transportError => rfl
  have hp : processCompetition fetch parse today c ledger = (c, ledger) := by
    unfold processCompetition
    rw [hc]
  refine ⟨hc, hp, ?_⟩
  show (let step := processCompetition fetch parse today c ledger
        let further := mainLoop fetch parse today rest step.2
        (step.1 :: further.1, further.2)) = _
  rw [hp]

/-- Witness for C2: a 404 response leaves the row and the ledger as they
were. -/
theorem C2_witness :
    processCompetition (fun _ => FetchOutcome.success 404 "Not Found") (fun _ => NodeList.nil)
        "2024-06-01" exampleCompetition none = (exampleCompetition, none) :=
  (C2_fetch_failure_contained (fun _ => FetchOutcome.success 404 "Not Found")
    (fun _ => NodeList.nil) "2024-06-01" exampleCompetition [] none
    (fun body hb => by simp at hb)).2.1

/-- Helper: the row component of one loop iteration does not depend on the
ledger: the row is returned unchanged unless the fetch produced non-empty
content, in which case only its last_checked field becomes today. -/
theorem processCompetition_fst (fetch : String → FetchOutcome) (parse : String → NodeList)
    (today : String) (c : Competition) (ledger : Option CsvFile) :
    (processCompetition fetch parse today c ledger).1 =
      match check_competition_website (fetch c.url) with
      | none => c
      | some html => if html == "" then c else { c with last_checked := today } := by
  unfold processCompetition
  cases check_competition_website (fetch c.url) with
  | none => rfl
  | some html =>
    cases hq : html == "" with
    | false => simp [hq]
    | true => simp [hq]

/-- Helper: the competitions list returned by the loop of `main` is the
input list mapped row by row, the update depending only on the outcome of
the fetch of each row. -/
theorem mainLoop_fst (fetch : String → FetchOutcome) (parse : String → NodeList)
    (today : String) :
    ∀ (competitions : List Competition) (ledger : Option CsvFile),
    (mainLoop fetch parse today competitions ledger).1 =
      competitions.map (fun c =>
        match check_competition_website (fetch c.url) with
        | none => c
        | some html => if html == "" then c else { c with last_checked := today })
  | [], _ => rfl
  | c :: rest, ledger => by
    show (let step := processCompetition fetch parse today c ledger
          let further := mainLoop fetch parse today rest step.2
          (step.1 :: further.1, further.2)).1 = _
    simp only [List.map]
    rw [← processCompetition_fst fetch parse today c ledger,
        ← mainLoop_fst fetch parse today rest (processCompetition fetch parse today c ledger).2]

/-- C1 counterexample: a full run over a one-row table whose fetch times
out. The table is rewritten, but the last_checked of the processed row is
left at its previous value instead of being set to today. -/
theorem C1_counterexample :
    (Tbmc.main (fun _ => FetchOutcome.timeout) (fun _ => NodeList.nil) "2025-01-01"
        [{ competition_name := "Rice Business Plan Competition",
           url := "https://rbpc.rice.edu/winners", last_checked := "2020-05-05" }] none).1
      = [["competition_name", "url", "last_checked"],
         ["Rice Business Plan Competition", "https://rbpc.rice.edu/winners", "2020-05-05"]]
    ∧ (Tbmc.main (fun _ => FetchOutcome.timeout) (fun _ => NodeList.nil) "2025-01-01"
        [{ competition_name := "Rice Business Plan Competition",
           url := "https://rbpc.rice.edu/winners", last_checked := "2020-05-05" }] none).1
      ≠ [["competition_name", "url", "last_checked"],
         ["Rice Business Plan Competition", "https://rbpc.rice.edu/winners", "2025-01-01"]] := by
  decide

/-- C1 as amended: after a full run of main over a loaded competitions
table, the source table is rewritten wholesale as the header row followed
by one row per input row in order, with the column set
competition_name, url, last_checked; competition_name and url are those of
the input row, and last_checked is today for exactly the rows whose fetch
returned a 200 response with non-empty body, the previous value being kept
for the others. -/
theorem C1_table_rewrite (fetch : String → FetchOutcome) (parse : String → NodeList)
    (today : String) (competitions : List Competition) (ledger : Option CsvFile) :
    (Tbmc.main fetch parse today competitions ledger).1 =
      competitionsFieldnames ::
        competitions.map (fun c =>
          match check_competition_website (fetch c.url) with
          | none => [c.competition_name, c.url, c.last_checked]
          | some html =>
            if html == "" then [c.competition_name, c.url, c.last_checked]
            else [c.competition_name, c.url, today]) := by
  show competitionsFieldnames :: (mainLoop fetch parse today competitions ledger).1.map
        competitionRow = _
  rw [mainLoop_fst fetch parse today competitions ledger, List.map_map]
  refine congrArg (fun l => competitionsFieldnames :: l) (List.map_congr_left ?_)
  intro c _
  simp only [Function.comp_apply]
  cases check_competition_website (fetch c.url) with
  | none => rfl
  | some html =>
    cases hq : html == "" with
    | false => simp [hq, competitionRow]
    | true => simp [hq, competitionRow]

/-- C5: a candidate name element is skipped, without error, exactly when
its stripped text is shorter than 3 characters or contains one of the stop
words winner, award, prize, about case-insensitively; concretely, a
winner section whose name candidate has 2 characters yields no record and
one whose candidate has 3 stop-word-free characters yields its record. -/
theorem C5_name_filter (competition_name : String) (name_elem : Node) (siblings : NodeList) :
    (processName competition_name name_elem siblings = [] ↔
      ((pyStrip (getText name_elem)).length < 3
       ∨ regexNameStop (pyStrip (getText name_elem)) = true))
    ∧ extract_basic_info (some shortNameSoup) "MIT $100K" = []
    ∧ extract_basic_info (some threeCharNameSoup) "MIT $100K" =
        [{ studentOrTeamName := "Abe", school := "", year := "", major := "",
           competition := "MIT $100K", ventureName := "", email := "" }] := by
  refine ⟨?_, by decide, by decide⟩
  by_cases hc : (pyStrip (getText name_elem)).length < 3
      ∨ regexNameStop (pyStrip (getText name_elem)) = true
  · have hb : (decide ((pyStrip (getText name_elem)).length < 3)
        || regexNameStop (pyStrip (getText name_elem))) = true := by
      rcases hc with h | h
      · simp [h]
      · simp [h]
    constructor
    · intro _; exact hc
    · intro _; simp [processName, hb]
  · push_neg at hc
    obtain ⟨h1, h2⟩ := hc
    have hlt : ¬ (pyStrip (getText name_elem)).length < 3 := Nat.not_lt.mpr h1
    have hb : (decide ((pyStrip (getText name_elem)).length < 3)
        || regexNameStop (pyStrip (getText name_elem))) = false := by
      simp [hlt, h2]
    have hnn : pyStrip (getText name_elem) ≠ "" := by
      intro he
      rw [he] at h1
      exact absurd h1 (by decide)
    have hne : (pyStrip (getText name_elem) == "") = false := by simpa using hnn
    constructor
    · intro hEmpty
      simp [processName, hb, hne] at hEmpty
    · intro hOr
      rcases hOr with h | h
      · exact absurd h hlt
      · exact absurd h h2

/-- Witness for C5: the filter direction applied at a concrete skipped
element. -/
theorem C5_witness :
    processName "MIT $100K" (Node.elem "h3" [] (NodeList.cons (Node.text "Al") NodeList.nil))
      NodeList.nil = [] :=
  (C5_name_filter "MIT $100K" (Node.elem "h3" [] (NodeList.cons (Node.text "Al") NodeList.nil))
    NodeList.nil).1.mpr (Or.inl (by decide))

/-- Helper: a string built from a non-empty character list is non-empty. -/
theorem stringMk_ne_empty (l : List Char) (h : l ≠ []) : String.mk l ≠ "" := by
  intro he
  exact h (congrArg String.data he)

/-- Helper: a successful case-insensitive literal match on a non-empty
pattern consumes a non-empty run of characters. -/
theorem matchLitCI_fst_ne_nil (p : Char) (ps cs : List Char) (r : List Char × List Char)
    (h : matchLitCI (p :: ps) cs = some r) : r.1 ≠ [] := by
  unfold matchLitCI at h
  split at h
  · rename_i hpre
    cases h
    cases cs with
    | nil => simp [isPrefixCI] at hpre
    | cons c cs2 => simp [List.take]
  · cases h

/-- Helper: the year matcher never returns the empty string at a position. -/
theorem yearAt_ne_empty (prev : Option Char) (cs : List Char) (m : String)
    (h : yearAt prev cs = some m) : m ≠ "" := by
  unfold yearAt at h
  rcases h1 : matchLitCI "freshman".data cs with _ | p1
  all_goals rw [h1] at h
  case some =>
    simp only [Option.map_some', Option.some_orElse] at h
    cases h
    exact stringMk_ne_empty _ (matchLitCI_fst_ne_nil _ _ _ _ h1)
  case none =>
  simp only [Option.map_none', Option.none_orElse] at h
  rcases h2 : matchLitCI "sophomore".data cs with _ | p2
  all_goals rw [h2] at h
  case some =>
    simp only [Option.map_some', Option.some_orElse] at h
    cases h
    exact stringMk_ne_empty _ (matchLitCI_fst_ne_nil _ _ _ _ h2)
  case none =>
  simp only [Option.map_none', Option.none_orElse] at h
  rcases h3 : matchLitCI "junior".data cs with _ | p3
  all_goals rw [h3] at h
  case some =>
    simp only [Option.map_some', Option.some_orElse] at h
    cases h
    exact stringMk_ne_empty _ (matchLitCI_fst_ne_nil _ _ _ _ h3)
  case none =>
  simp only [Option.map_none', Option.none_orElse] at h
  rcases h4 : matchLitCI "senior".data cs with _ | p4
  all_goals rw [h4] at h
  case some =>
    simp only [Option.map_some', Option.some_orElse] at h
    cases h
    exact stringMk_ne_empty _ (matchLitCI_fst_ne_nil _ _ _ _ h4)
  case none =>
  simp only [Option.map_none', Option.none_orElse] at h
  revert h
  split
  · intro h
    revert h
    split
    · intro h
      injection h with hm
      subst hm
      exact stringMk_ne_empty _ (by simp)
    · intro h
      exact Option.noConfusion h
  · intro h
    exact Option.noConfusion h

/-- Helper: the whole year search never returns the empty string. -/
theorem yearSearchAux_ne_empty : ∀ (prev : Option Char) (cs : List Char) (m : String),
    yearSearchAux prev cs = some m → m ≠ ""
  | prev, [], m, h => yearAt_ne_empty prev [] m h
  | prev, c :: rest, m, h => by
    unfold yearSearchAux at h
    rw [Option.orElse_eq_some] at h
    rcases h with h | ⟨-, h⟩
    · exact yearAt_ne_empty prev (c :: rest) m h
    · exact yearSearchAux_ne_empty (some c) rest m h

/-- Helper: the year regex model never yields the empty string. -/
theorem yearRegexSearch_ne_empty (s : String) (m : String)
    (h : yearRegexSearch s = some m) : m ≠ "" :=
  yearSearchAux_ne_empty none s.data m h

/-- Helper: the first major alternative never yields the empty string. -/
theorem majorAlt1_ne_empty (cs : List Char) (m : String) (h : majorAlt1 cs = some m) :
    m ≠ "" := by
  unfold majorAlt1 at h
  rw [Option.orElse_eq_some] at h
  rcases h with h | ⟨-, h⟩
  · rcases hx : matchLitCI "majoring in ".data cs with _ | ⟨w0, rest⟩
    · rw [hx] at h
      exact Option.noConfusion h
    · rw [hx] at h
      replace h : (if ((takeWordRun rest).1).isEmpty then none
          else some (String.mk (takeWordRun rest).1)) = some m := h
      revert h
      split
      · intro h
        exact Option.noConfusion h
      · rename_i hguard
        intro h
        injection h with hm
        subst hm
        refine stringMk_ne_empty _ (fun hnil => hguard ?_)
        rw [hnil]
        rfl
  · rcases hx : matchLitCI "major in ".data cs with _ | ⟨w0, rest⟩
    · rw [hx] at h
      exact Option.noConfusion h
    · rw [hx] at h
      replace h : (if ((takeWordRun rest).1).isEmpty then none
          else some (String.mk (takeWordRun rest).1)) = some m := h
      revert h
      split
      · intro h
        exact Option.noConfusion h
      · rename_i hguard
        intro h
        injection h with hm
        subst hm
        refine stringMk_ne_empty _ (fun hnil => hguard ?_)
        rw [hnil]
        rfl

/-- Helper: the whole major matcher at one position never yields the empty
string. -/
theorem majorAt_ne_empty (cs : List Char) (m : String) (h : majorAt cs = some m) :
    m ≠ "" := by
  unfold majorAt at h
  rw [Option.orElse_eq_some] at h
  rcases h with h | ⟨-, h⟩
  · exact majorAlt1_ne_empty cs m h
  · unfold majorAlt2 at h
    replace h : (if ((takeWordRun cs).1).isEmpty then none
        else if isPrefixCI " major".data (takeWordRun cs).2 then
          some (String.mk (takeWordRun cs).1) else none) = some m := h
    revert h
    split
    · intro h
      exact Option.noConfusion h
    · rename_i hguard
      split
      · intro h
        injection h with hm
        subst hm
        refine stringMk_ne_empty _ (fun hnil => hguard ?_)
        rw [hnil]
        rfl
      · intro h
        exact Option.noConfusion h

/-- Helper: the major search never yields the empty string. -/
theorem majorSearchAux_ne_empty : ∀ (cs : List Char) (m : String),
    majorSearchAux cs = some m → m ≠ ""
  | [], m, h => majorAt_ne_empty [] m h
  | c :: rest, m, h => by
    unfold majorSearchAux at h
    rw [Option.orElse_eq_some] at h
    rcases h with h | ⟨-, h⟩
    · exact majorAt_ne_empty (c :: rest) m h
    · exact majorSearchAux_ne_empty rest m h

/-- Helper: the major regex model never yields the empty string. -/
theorem majorRegexSearch_ne_empty (s : String) (m : String)
    (h : majorRegexSearch s = some m) : m ≠ "" :=
  majorSearchAux_ne_empty s.data m h

/-- Helper: a text the school regex accepts is non-empty. -/
theorem regexSchool_ne_empty (s : String) (h : regexSchool s = true) : s ≠ "" := by
  intro he
  subst he
  exact absurd h (by decide)

/-- Helper: the explicit value of one sibling-scan step. -/
theorem scanStep_eq (s y m : String) (el : Node) :
    scanStep (s, y, m) el =
      (if regexSchool (pyStrip (getText el)) && s == "" then pyStrip (getText el) else s,
       match yearRegexSearch (pyStrip (getText el)) with
       | some v => if y == "" then v else y
       | none => y,
       match majorRegexSearch (pyStrip (getText el)) with
       | some v => if m == "" then v else m
       | none => m) := rfl

/-- Helper: one scan step never changes a field that already holds a
non-empty value. -/
theorem scanStep_keep (s y m : String) (el : Node) :
    (s ≠ "" → (scanStep (s, y, m) el).1 = s)
    ∧ (y ≠ "" → (scanStep (s, y, m) el).2.1 = y)
    ∧ (m ≠ "" → (scanStep (s, y, m) el).2.2 = m) := by
  rw [scanStep_eq]
  refine ⟨fun h => ?_, fun h => ?_, fun h => ?_⟩
  · have hb : (s == "") = false := by simpa using h
    simp [hb]
  · have hb : (y == "") = false := by simpa using h
    cases hY : yearRegexSearch (pyStrip (getText el)) <;> simp [hb]
  · have hb : (m == "") = false := by simpa using h
    cases hM : majorRegexSearch (pyStrip (getText el)) <;> simp [hb]

/-- Helper: the sibling fold never changes a field that already holds a
non-empty value. -/
theorem scanFrom_keep : ∀ (sibs : NodeList) (acc : String × String × String),
    (acc.1 ≠ "" → (scanSiblingsFrom acc sibs).1 = acc.1)
    ∧ (acc.2.1 ≠ "" → (scanSiblingsFrom acc sibs).2.1 = acc.2.1)
    ∧ (acc.2.2 ≠ "" → (scanSiblingsFrom acc sibs).2.2 = acc.2.2)
  | .nil, acc => ⟨fun _ => rfl, fun _ => rfl, fun _ => rfl⟩
  | .cons c rest, acc => by
    obtain ⟨s, y, m⟩ := acc
    have hstep := scanStep_keep s y m c
    have ih := scanFrom_keep rest (scanStep (s, y, m) c)
    refine ⟨fun h => ?_, fun h => ?_, fun h => ?_⟩
    · show (scanSiblingsFrom (scanStep (s, y, m) c) rest).1 = s
      rw [ih.1 (by rw [hstep.1 h]; exact h), hstep.1 h]
    · show (scanSiblingsFrom (scanStep (s, y, m) c) rest).2.1 = y
      rw [ih.2.1 (by rw [hstep.2.1 h]; exact h), hstep.2.1 h]
    · show (scanSiblingsFrom (scanStep (s, y, m) c) rest).2.2 = m
      rw [ih.2.2 (by rw [hstep.2.2 h]; exact h), hstep.2.2 h]

/-- Helper: started with an empty school field, the fold resolves school to
the stripped text of the first sibling the school regex accepts. -/
theorem scanFrom_school : ∀ (sibs : NodeList) (acc : String × String × String),
    acc.1 = "" →
    (scanSiblingsFrom acc sibs).1 = ((sibTexts sibs).find? regexSchool).getD ""
  | .nil, acc, h => by
    show acc.1 = _
    rw [h]
    rfl
  | .cons c rest, acc, h => by
    obtain ⟨s, y, m⟩ := acc
    replace h : s = "" := h
    subst h
    show (scanSiblingsFrom (scanStep ("", y, m) c) rest).1 = _
    cases hreg : regexSchool (pyStrip (getText c)) with
    | true =>
      have h1 : (scanStep ("", y, m) c).1 = pyStrip (getText c) := by
        rw [scanStep_eq]
        simp [hreg]
      have hne : (scanStep ("", y, m) c).1 ≠ "" := by
        rw [h1]
        exact regexSchool_ne_empty _ hreg
      rw [(scanFrom_keep rest (scanStep ("", y, m) c)).1 hne, h1]
      show _ = (((pyStrip (getText c)) :: sibTexts rest).find? regexSchool).getD ""
      rw [List.find?_cons_of_pos _ hreg]
      rfl
    | false =>
      have h1 : (scanStep ("", y, m) c).1 = "" := by
        rw [scanStep_eq]
        simp [hreg]
      rw [scanFrom_school rest (scanStep ("", y, m) c) h1]
      show _ = (((pyStrip (getText c)) :: sibTexts rest).find? regexSchool).getD ""
      rw [List.find?_cons_of_neg _ (by simp [hreg])]

/-- Helper: started with an empty year field, the fold resolves year to the
substring matched in the first sibling the year regex accepts. -/
theorem scanFrom_year : ∀ (sibs : NodeList) (acc : String × String × String),
    acc.2.1 = "" →
    (scanSiblingsFrom acc sibs).2.1 = ((sibTexts sibs).findSome? yearRegexSearch).getD ""
  | .nil, acc, h => by
    show acc.2.1 = _
    rw [h]
    rfl
  | .cons c rest, acc, h => by
    obtain ⟨s, y, m⟩ := acc
    replace h : y = "" := h
    subst h
    show (scanSiblingsFrom (scanStep (s, "", m) c) rest).2.1 = _
    cases hY : yearRegexSearch (pyStrip (getText c)) with
    | some v =>
      have h1 : (scanStep (s, "", m) c).2.1 = v := by
        rw [scanStep_eq]
        simp [hY]
      have hne : (scanStep (s, "", m) c).2.1 ≠ "" := by
        rw [h1]
        exact yearRegexSearch_ne_empty _ _ hY
      rw [(scanFrom_keep rest (scanStep (s, "", m) c)).2.1 hne, h1]
      show _ = (((pyStrip (getText c)) :: sibTexts rest).findSome? yearRegexSearch).getD ""
      rw [List.findSome?_cons, hY]
      rfl
    | none =>
      have h1 : (scanStep (s, "", m) c).2.1 = "" := by
        rw [scanStep_eq]
        simp [hY]
      rw [scanFrom_year rest (scanStep (s, "", m) c) h1]
      show _ = (((pyStrip (getText c)) :: sibTexts rest).findSome? yearRegexSearch).getD ""
      rw [List.findSome?_cons, hY]

/-- Helper: started with an empty major field, the fold resolves major to
the word captured in the first sibling the major regex accepts. -/
theorem scanFrom_major : ∀ (sibs : NodeList) (acc : String × String × String),
    acc.2.2 = "" →
    (scanSiblingsFrom acc sibs).2.2 = ((sibTexts sibs).findSome? majorRegexSearch).getD ""
  | .nil, acc, h => by
    show acc.2.2 = _
    rw [h]
    rfl
  | .cons c rest, acc, h => by
    obtain ⟨s, y, m⟩ := acc
    replace h : m = "" := h
    subst h
    show (scanSiblingsFrom (scanStep (s, y, "") c) rest).2.2 = _
    cases hM : majorRegexSearch (pyStrip (getText c)) with
    | some v =>
      have h1 : (scanStep (s, y, "") c).2.2 = v := by
        rw [scanStep_eq]
        simp [hM]
      have hne : (scanStep (s, y, "") c).2.2 ≠ "" := by
        rw [h1]
        exact majorRegexSearch_ne_empty _ _ hM
      rw [(scanFrom_keep rest (scanStep (s, y, "") c)).2.2 hne, h1]
      show _ = (((pyStrip (getText c)) :: sibTexts rest).findSome? majorRegexSearch).getD ""
      rw [List.findSome?_cons, hM]
      rfl
    | none =>
      have h1 : (scanStep (s, y, "") c).2.2 = "" := by
        rw [scanStep_eq]
        simp [hM]
      rw [scanFrom_major rest (scanStep (s, y, "") c) h1]
      show _ = (((pyStrip (getText c)) :: sibTexts rest).findSome? majorRegexSearch).getD ""
      rw [List.findSome?_cons, hM]

/-- C4: during the sibling scan, each of the three fields resolves
independently to its first matching sibling in document order: a field that
already holds a non-empty value is never overwritten by a later sibling,
and the scan started from empty fields yields, per field, the value taken
from the first sibling its regex accepts: the entire stripped text for
school, the matched substring for year, the captured word for major. -/
theorem C4_first_match_per_field (sibs : NodeList) (acc : String × String × String) :
    (acc.1 ≠ "" → (scanSiblingsFrom acc sibs).1 = acc.1)
    ∧ (acc.2.1 ≠ "" → (scanSiblingsFrom acc sibs).2.1 = acc.2.1)
    ∧ (acc.2.2 ≠ "" → (scanSiblingsFrom acc sibs).2.2 = acc.2.2)
    ∧ (scanSiblings sibs).1 = ((sibTexts sibs).find? regexSchool).getD ""
    ∧ (scanSiblings sibs).2.1 = ((sibTexts sibs).findSome? yearRegexSearch).getD ""
    ∧ (scanSiblings sibs).2.2 = ((sibTexts sibs).findSome? majorRegexSearch).getD "" :=
  ⟨(scanFrom_keep sibs acc).1, (scanFrom_keep sibs acc).2.1, (scanFrom_keep sibs acc).2.2,
   scanFrom_school sibs ("", "", "") rfl, scanFrom_year sibs ("", "", "") rfl,
   scanFrom_major sibs ("", "", "") rfl⟩

/-- Witness for C4: with two sibling texts both containing university, a
pre-filled school survives the scan, and the scan from empty fields takes
the full text of the first of the two. -/
theorem C4_witness :
    (scanSiblingsFrom ("Kept University", "", "") twoUnivSibs).1 = "Kept University"
    ∧ (scanSiblings twoUnivSibs).1 = "First University" :=
  ⟨(C4_first_match_per_field twoUnivSibs ("Kept University", "", "")).1 (by decide),
   ((C4_first_match_per_field twoUnivSibs ("", "", "")).2.2.2.1).trans (by decide)⟩

mutual
/-- Helper: a subtree with no matching container contributes no winner
section. -/
theorem findSectionsNode_nil : ∀ (n : Node),
    anyNodeP sectionMatch n = false → findSectionsNode n = []
  | .text _, _ => rfl
  | .elem t k cs, h => by
    have h2 := Bool.or_eq_false_iff.mp
      (show (sectionMatch (Node.elem t k cs) || anyListP sectionMatch cs) = false from h)
    show (if sectionMatch (Node.elem t k cs) then [Node.elem t k cs] else [])
        ++ findSectionsList cs = []
    rw [h2.1, findSectionsList_nil cs h2.2]
    rfl
/-- Helper: a forest with no matching container yields no winner section. -/
theorem findSectionsList_nil : ∀ (l : NodeList),
    anyListP sectionMatch l = false → findSectionsList l = []
  | .nil, _ => rfl
  | .cons c rest, h => by
    have h2 := Bool.or_eq_false_iff.mp
      (show (anyNodeP sectionMatch c || anyListP sectionMatch rest) = false from h)
    show findSectionsNode c ++ findSectionsList rest = []
    rw [findSectionsNode_nil c h2.1, findSectionsList_nil rest h2.2]
    rfl
end

mutual
/-- Helper: when BeautifulSoup `.string` is defined, it coincides with
`get_text()`. -/
theorem getText_of_nodeString : ∀ (n : Node) (s : String),
    nodeString n = some s → getText n = s
  | .text s0, s, h => by
    injection h
  | .elem t k cs, s, h => getTextList_of_nodeStringList cs s h
/-- Helper: `.string` of a child list, when defined, is its concatenated
text. -/
theorem getTextList_of_nodeStringList : ∀ (l : NodeList) (s : String),
    nodeStringList l = some s → getTextList l = s
  | .nil, _, h => Option.noConfusion h
  | .cons c .nil, s, h => by
    show getText c ++ getTextList .nil = s
    rw [getText_of_nodeString c s h]
    exact String.append_empty s
  | .cons _ (.cons _ _), _, h => Option.noConfusion h
end

/-- Helper: a heading the source matcher accepts is a heading whose text
matches the winner pattern. -/
theorem winnerHeadingText_of_headingMatch : ∀ (n : Node),
    headingMatch n = true → winnerHeadingText n = true
  | .elem t k cs, h => by
    have h2 := Bool.and_eq_true_iff.mp
      (show ((t == "h1" || t == "h2" || t == "h3" || t == "h4")
          && (match nodeString (Node.elem t k cs) with
              | some s => regexWinnerAwardPrize s
              | none => false)) = true from h)
    show ((t == "h1" || t == "h2" || t == "h3" || t == "h4")
        && regexWinnerAwardPrize (getText (Node.elem t k cs))) = true
    rw [h2.1]
    rcases hS : nodeString (Node.elem t k cs) with _ | s
    · rw [hS] at h2
      exact absurd h2.2 (by simp)
    · have hw : regexWinnerAwardPrize s = true := by
        have := h2.2
        rw [hS] at this
        exact this
      rw [getText_of_nodeString _ s hS, hw]
      rfl

mutual
/-- Helper: a subtree with no winner-texted heading contributes no
heading-derived section, whatever the ancestor chain. -/
theorem headingSectionsNode_nil : ∀ (anc : List Node) (n : Node),
    anyNodeP winnerHeadingText n = false → headingSectionsNode anc n = []
  | _, .text _, _ => rfl
  | anc, .elem t k cs, h => by
    have h2 := Bool.or_eq_false_iff.mp
      (show (winnerHeadingText (Node.elem t k cs) || anyListP winnerHeadingText cs) = false
       from h)
    have hhm : headingMatch (Node.elem t k cs) = false := by
      cases hq : headingMatch (Node.elem t k cs) with
      | false => rfl
      | true =>
        rw [winnerHeadingText_of_headingMatch _ hq] at h2
        exact absurd h2.1 (by simp)
    show (if headingMatch (Node.elem t k cs) then
            (match findParentSection anc with | some s => [s] | none => [])
          else []) ++ headingSectionsList (Node.elem t k cs :: anc) cs = []
    rw [hhm, headingSectionsList_nil (Node.elem t k cs :: anc) cs h2.2]
    rfl
/-- Helper: a forest with no winner-texted heading yields no
heading-derived section. -/
theorem headingSectionsList_nil : ∀ (anc : List Node) (l : NodeList),
    anyListP winnerHeadingText l = false → headingSectionsList anc l = []
  | _, .nil, _ => rfl
  | anc, .cons c rest, h => by
    have h2 := Bool.or_eq_false_iff.mp
      (show (anyNodeP winnerHeadingText c || anyListP winnerHeadingText rest) = false from h)
    show headingSectionsNode anc c ++ headingSectionsList anc rest = []
    rw [headingSectionsNode_nil anc c h2.1, headingSectionsList_nil anc rest h2.2]
    rfl
end

/-- C6: on any document containing neither a div, section or article whose
class matches winner, award or prize case-insensitively, nor a heading of
level 1 to 4 whose text matches that pattern, extraction returns the empty
sequence; the embedding is a total function, so no error is raised. -/
theorem C6_no_winner_regions (soup : NodeList) (competition_name : String)
    (h1 : anyListP sectionMatch soup = false)
    (h2 : anyListP winnerHeadingText soup = false) :
    extract_basic_info (some soup) competition_name = [] := by
  show (let winner_sections := findSectionsList soup
        let winner_sections2 :=
          if winner_sections.isEmpty then headingSectionsList [] soup else winner_sections
        ((winner_sections2.map (processSection competition_name)).flatten)) = []
  rw [findSectionsList_nil soup h1, headingSectionsList_nil [] soup h2]
  rfl

/-- Witness for C6: a page with headings and paragraphs but no winner
marker extracts to the empty sequence. -/
theorem C6_witness : extract_basic_info (some plainSoup) "MIT $100K" = [] :=
  C6_no_winner_regions plainSoup "MIT $100K" (by decide) (by decide)
